import Mathlib

/-!
Verification of the PPTX deck importer (`parsePptx` in `src/App.tsx`) and the
markdown export (`handleDownload` in `src/components/SlideViewer.tsx`).

The archive is modelled as an association list from entry names to parsed XML
documents.  A parsed XML document is modelled by the facets the importer
queries: the manifest's `p:sldId` nodes (their `r:id` attributes), the
`Relationship` elements of a `.rels` part (their `Id`, `Type` and `Target`
attributes), the `p:sp` shapes of a slide part (placeholder type and the text
runs of each `a:p` paragraph), and the flat list of all `a:t` text runs of a
notes part.

JavaScript string operations (`String.prototype.replace` with a string
pattern, `split('/').pop()`, CSS substring attribute match `[Type*=...]`,
`Array.prototype.join`) are embedded as structurally recursive functions on
character lists so that all definitions evaluate by kernel reduction.
-/

/-- JS `pat` occurs as a substring (CSS `[Type*="pat"]` / `String.includes`). -/
def containsSubAux (pat : List Char) : List Char → Bool
  | [] => pat.isEmpty
  | c :: rest => pat.isPrefixOf (c :: rest) || containsSubAux pat rest

/-- `containsSub s pat` is true when `pat` occurs as a substring of `s`. -/
def containsSub (s pat : String) : Bool :=
  containsSubAux pat.toList s.toList

/-- Remove the first occurrence of `pat`, as JS `s.replace(pat, '')`. -/
def replaceFirstAux (pat : List Char) : List Char → List Char
  | [] => []
  | c :: rest =>
    if pat.isPrefixOf (c :: rest) then (c :: rest).drop pat.length
    else c :: replaceFirstAux pat rest

/-- `replaceFirst s pat` removes the first occurrence of `pat` from `s`,
modelling JS `s.replace(pat, '')` with a string pattern. -/
def replaceFirst (s pat : String) : String :=
  String.mk (replaceFirstAux pat.toList s.toList)

/-- Accumulatorized scan keeping the segment after the last slash. -/
def lastComponentAux : List Char → List Char → List Char
  | acc, [] => acc.reverse
  | acc, c :: rest =>
    if c = '/' then lastComponentAux [] rest
    else lastComponentAux (c :: acc) rest

/-- `lastComponent s` is JS `s.split('/').pop()`: the segment after the last
slash of `s` (all of `s` when there is no slash). -/
def lastComponent (s : String) : String :=
  String.mk (lastComponentAux [] s.toList)

/-- JS `Array.prototype.join(sep)`: elements interleaved with `sep`. -/
def joinSep (sep : String) : List String → String
  | [] => ""
  | [x] => x
  | x :: y :: rest => x ++ sep ++ joinSep sep (y :: rest)

/-- The `Slide` record of `src/types.ts`: title, bullet-point strings,
speaker notes, and an optional image reference (absent on import). -/
structure Slide where
  title : String
  content : List String
  speakerNotes : String
  imageUrl : Option String := none
deriving DecidableEq

/-- A `Relationship` element of a `.rels` part: its `Id`, `Type` and
`Target` attributes (each may be absent). -/
structure Relationship where
  id : Option String
  type : Option String
  target : Option String
deriving DecidableEq

/-- A `p:sp` shape of a slide part: the `type` attribute of its
`p:ph` placeholder (when present) and the text runs (`a:t` contents) of each
of its `a:p` paragraphs, in document order. -/
structure Shape where
  phType : Option String
  paragraphs : List (List String)
deriving DecidableEq

/-- A parsed XML document, described by the facets the importer queries.
A document of one kind simply has empty facets of the other kinds, exactly as
a DOM query for an absent tag returns no nodes. -/
structure XmlDoc where
  sldIds : List (Option String) := []
  rels : List Relationship := []
  shapes : List Shape := []
  allRuns : List String := []
deriving DecidableEq

/-- A zip archive: named entries, each a parsed XML document. -/
abbrev Zip := List (String × XmlDoc)

/-- `zip.file(name)` of JSZip: the entry named `name`, if any. -/
def zipFile (zip : Zip) (name : String) : Option XmlDoc :=
  (zip.find? (fun e => e.1 == name)).map (fun e => e.2)

/-- The title selector of App.tsx line 68: a shape whose placeholder type is
`title` or `ctrTitle`. -/
def isTitleShape (sp : Shape) : Bool :=
  sp.phType == some "title" || sp.phType == some "ctrTitle"

/-- The body selector of App.tsx line 73: a shape whose placeholder type is
`body`. -/
def isBodyShape (sp : Shape) : Bool :=
  sp.phType == some "body"

/-- The notes selector of App.tsx line 82: `Relationship[Type*="notesSlide"]`,
a relationship whose `Type` attribute contains the substring `notesSlide`. -/
def isNotesRel (r : Relationship) : Bool :=
  match r.type with
  | some t => containsSub t "notesSlide"
  | none => false

/-- Title extraction (App.tsx lines 68-70): all text runs of the first
title/center-title shape joined with no separator, else `"Untitled Slide"`. -/
def slideTitle (slideXml : XmlDoc) : String :=
  match slideXml.shapes.find? isTitleShape with
  | some sp => String.join sp.paragraphs.flatten
  | none => "Untitled Slide"

/-- Body extraction (App.tsx lines 73-75): one string per `a:p` paragraph of
the first body shape, each the separator-free join of that paragraph's runs;
`[]` when there is no body shape. -/
def slideContent (slideXml : XmlDoc) : List String :=
  match slideXml.shapes.find? isBodyShape with
  | some sp => sp.paragraphs.map String.join
  | none => []

/-- Speaker-notes extraction (App.tsx lines 77-91).  The slide's own rels
part is looked up at `ppt/slides/_rels/<basename>.rels`; its first
notes-typed relationship's target, with the first `../` removed, is looked up
under the base `ppt/slides/`; all `a:t` runs of that part are joined.  Every
failure along the way yields the empty string. -/
def slideNotes (zip : Zip) (slidePath : String) : String :=
  match zipFile zip ("ppt/slides/_rels/" ++ lastComponent slidePath ++ ".rels") with
  | none => ""
  | some slideRelsXml =>
    match (slideRelsXml.rels.find? isNotesRel).bind (fun r => r.target) with
    | none => ""
    | some notesPath =>
      match zipFile zip ("ppt/slides/" ++ replaceFirst notesPath "../") with
      | none => ""
      | some notesXml => String.join notesXml.allRuns

/-- The per-slide record built at App.tsx line 93: the object literal
`{ title, content, speakerNotes }` (no `imageUrl`). -/
def buildSlide (zip : Zip) (slidePath : String) (slideXml : XmlDoc) : Slide :=
  { title := slideTitle slideXml
    content := slideContent slideXml
    speakerNotes := slideNotes zip slidePath
    imageUrl := none }

/-- The per-slide async task (App.tsx lines 51-94): resolve one manifest
`p:sldId` reference.  `ok none` is the JS `return null` (skipped slide);
the only rejection is the missing presentation rels part. -/
def extractRef (zip : Zip) (rIdOpt : Option String) : Except String (Option Slide) :=
  match rIdOpt with
  | none => Except.ok none
  | some rId =>
    match zipFile zip "ppt/_rels/presentation.xml.rels" with
    | none => Except.error "presentation.xml.rels not found"
    | some presRelsXml =>
      match (presRelsXml.rels.find? (fun r => r.id == some rId)).bind (fun r => r.target) with
      | none => Except.ok none
      | some slidePath =>
        match zipFile zip ("ppt/" ++ slidePath) with
        | none => Except.ok none
        | some slideXml => Except.ok (some (buildSlide zip slidePath slideXml))

/-- The rejection-free reading of `extractRef`: the slide a manifest
reference resolves to, or `none` when the reference is skipped (no `r:id`,
no matching relationship or target, or missing slide part).  It agrees with
`extractRef` whenever the presentation rels part is present. -/
def simpleExtract (zip : Zip) (rIdOpt : Option String) : Option Slide :=
  match rIdOpt with
  | none => none
  | some rId =>
    match zipFile zip "ppt/_rels/presentation.xml.rels" with
    | none => none
    | some presRelsXml =>
      match (presRelsXml.rels.find? (fun r => r.id == some rId)).bind (fun r => r.target) with
      | none => none
      | some slidePath =>
        match zipFile zip ("ppt/" ++ slidePath) with
        | none => none
        | some slideXml => some (buildSlide zip slidePath slideXml)

/-- `Promise.all`, determinized to source order: the list of task results,
or the first rejection. -/
def collectResults : List (Except String (Option Slide)) → Except String (List (Option Slide))
  | [] => Except.ok []
  | Except.error e :: _ => Except.error e
  | Except.ok v :: rest => (collectResults rest).map (fun l => v :: l)

/-- `parsePptx` (App.tsx lines 42-99): load the manifest, resolve each
`p:sldId` reference, drop the skipped slides, and fail when nothing is left. -/
def parsePptx (zip : Zip) : Except String (List Slide) :=
  match zipFile zip "ppt/presentation.xml" with
  | none => Except.error "Invalid PPTX file: presentation.xml not found."
  | some presentationXml =>
    match collectResults (presentationXml.sldIds.map (extractRef zip)) with
    | Except.error e => Except.error e
    | Except.ok results =>
      let parsedSlides := results.filterMap id
      if parsedSlides.length == 0 then
        Except.error "Could not find any slides in the PPTX file."
      else Except.ok parsedSlides

/-- Number of manifest slide references of the archive (0 when the manifest
is absent). -/
def manifestLen (zip : Zip) : Nat :=
  match zipFile zip "ppt/presentation.xml" with
  | some presentationXml => presentationXml.sldIds.length
  | none => 0

/-- Markdown serialization of one slide (SlideViewer.tsx lines 63-67):
heading from the title, one bullet per content string, then a notes section. -/
def slideMarkdown (slide : Slide) : String :=
  "## " ++ slide.title ++ "\n\n" ++
    joinSep "\n" (slide.content.map (fun point => "- " ++ point)) ++
    "\n\n" ++ "### Speaker Notes\n" ++ slide.speakerNotes

/-- The markdown export (SlideViewer.tsx lines 62-68): slides serialized and
joined by the horizontal-rule separator. -/
def handleDownloadMarkdown (slides : List Slide) : String :=
  joinSep "\n\n---\n\n" (slides.map slideMarkdown)

/-- The image-attachment update of SlideViewer.tsx lines 87-92: replace the
slide at `currentSlideIndex` by a copy holding the generated image URL. -/
def attachImage (slides : List Slide) (currentSlideIndex : Nat) (url : String) : List Slide :=
  slides.mapIdx (fun index slide =>
    if index == currentSlideIndex then { slide with imageUrl := some url } else slide)

/-!
Scheduled execution model for the fan-out of per-slide tasks (App.tsx lines
51, 96).  The per-slide tasks are issued together and settle in an arbitrary
completion order `σ` (a permutation of the task indices); `Promise.all`
rejects with the first settled rejection and otherwise stores each fulfilled
value at the task's source index.
-/

/-- The settled tasks, as (source index, result) pairs in completion order
`σ`. -/
def completedIn (tasks : List (Except String (Option Slide))) : List Nat →
    List (Nat × Except String (Option Slide))
  | [] => []
  | i :: σ =>
    match tasks[i]? with
    | none => completedIn tasks σ
    | some r => (i, r) :: completedIn tasks σ

/-- The first rejection among the settled tasks, in completion order. -/
def firstRejection : List (Nat × Except String (Option Slide)) → Option String
  | [] => none
  | p :: rest =>
    match p.2 with
    | Except.error e => some e
    | Except.ok _ => firstRejection rest

/-- The fulfilled values read back by source index, as `Promise.all` fills
its result array. -/
def settleByIndex (n : Nat) (completed : List (Nat × Except String (Option Slide))) :
    List (Option Slide) :=
  (List.range n).filterMap (fun i =>
    (completed.find? (fun p => p.1 == i)).bind (fun p =>
      match p.2 with
      | Except.ok v => some v
      | Except.error _ => none))

/-- `parsePptx` under an explicit completion order `σ` of the per-slide
tasks: identical to `parsePptx` except that the fan-out of tasks settles in
order `σ`. -/
def parsePptxSched (zip : Zip) (σ : List Nat) : Except String (List Slide) :=
  match zipFile zip "ppt/presentation.xml" with
  | none => Except.error "Invalid PPTX file: presentation.xml not found."
  | some presentationXml =>
    let tasks := presentationXml.sldIds.map (extractRef zip)
    let completed := completedIn tasks σ
    match firstRejection completed with
    | some e => Except.error e
    | none =>
      let parsedSlides := (settleByIndex tasks.length completed).filterMap id
      if parsedSlides.length == 0 then
        Except.error "Could not find any slides in the PPTX file."
      else Except.ok parsedSlides

/-!
Concrete archives used to instantiate the theorems.
-/

/-- A two-slide archive: both references resolve; slide 1 has a title shape
with two runs and a body shape; slide 2 has no shapes. -/
def zip2 : Zip :=
  [ ("ppt/presentation.xml", { sldIds := [some "rId1", some "rId2"] }),
    ("ppt/_rels/presentation.xml.rels",
      { rels := [ { id := some "rId1", type := some "slideType", target := some "slides/slide1.xml" },
                  { id := some "rId2", type := some "slideType", target := some "slides/slide2.xml" } ] }),
    ("ppt/slides/slide1.xml",
      { shapes := [ { phType := some "title", paragraphs := [["Intro", " to Rome"]] },
                    { phType := some "body", paragraphs := [["First", " point"], ["Second"]] } ] }),
    ("ppt/slides/slide2.xml", { shapes := [] }) ]

/-- The slide `zip2`'s first reference resolves to. -/
def zip2Slide1 : Slide :=
  { title := "Intro to Rome", content := ["First point", "Second"], speakerNotes := "" }

/-- The slide `zip2`'s second reference resolves to. -/
def zip2Slide2 : Slide :=
  { title := "Untitled Slide", content := [], speakerNotes := "" }

/-- A three-reference archive whose second reference's target part is
missing from the archive. -/
def zip3 : Zip :=
  [ ("ppt/presentation.xml", { sldIds := [some "rId1", some "rId2", some "rId3"] }),
    ("ppt/_rels/presentation.xml.rels",
      { rels := [ { id := some "rId1", type := some "slideType", target := some "slides/slide1.xml" },
                  { id := some "rId2", type := some "slideType", target := some "slides/slide2.xml" },
                  { id := some "rId3", type := some "slideType", target := some "slides/slide3.xml" } ] }),
    ("ppt/slides/slide1.xml",
      { shapes := [ { phType := some "title", paragraphs := [["One"]] } ] }),
    ("ppt/slides/slide3.xml",
      { shapes := [ { phType := some "title", paragraphs := [["Three"]] } ] }) ]

/-- An archive whose manifest lists no slide references at all (manifest and
relationship index both present). -/
def zipEmpty : Zip :=
  [ ("ppt/presentation.xml", { sldIds := [] }),
    ("ppt/_rels/presentation.xml.rels", { rels := [] }) ]

/-- An archive with one slide whose notes relationship targets
`../notesSlides/notesSlide1.xml`, the notes part sitting at the standard
location `ppt/notesSlides/notesSlide1.xml`. -/
def zipNotesStd : Zip :=
  [ ("ppt/presentation.xml", { sldIds := [some "rId1"] }),
    ("ppt/_rels/presentation.xml.rels",
      { rels := [ { id := some "rId1", type := some "slideType", target := some "slides/slide1.xml" } ] }),
    ("ppt/slides/slide1.xml",
      { shapes := [ { phType := some "title", paragraphs := [["T"]] } ] }),
    ("ppt/slides/_rels/slide1.xml.rels",
      { rels := [ { id := some "rId2", type := some "TypeOfNotes/notesSlide", target := some "../notesSlides/notesSlide1.xml" } ] }),
    ("ppt/notesSlides/notesSlide1.xml", { allRuns := ["Secret note"] }) ]

/-- An archive with one slide whose notes relationship targets a part that
really is under `ppt/slides/`, so the importer's lookup finds it. -/
def zipNotesLocal : Zip :=
  [ ("ppt/slides/_rels/slide1.xml.rels",
      { rels := [ { id := some "rId2", type := some "TypeOfNotes/notesSlide", target := some "notesSlide1.xml" } ] }),
    ("ppt/slides/notesSlide1.xml", { allRuns := ["Hello", " notes"] }) ]

/-!
Lemmas about the per-slide task and the determinized `Promise.all`.
-/

theorem extractRef_eq_of_rels (zip : Zip) (R : XmlDoc)
    (hr : zipFile zip "ppt/_rels/presentation.xml.rels" = some R) (r : Option String) :
    extractRef zip r = Except.ok (simpleExtract zip r) := by
  cases r with
  | none => rfl
  | some rId =>
    simp only [extractRef, simpleExtract, hr]
    cases hfind : (R.rels.find? (fun rel => rel.id == some rId)).bind (fun rel => rel.target) with
    | none => rfl
    | some slidePath =>
      dsimp only
      cases hsl : zipFile zip ("ppt/" ++ slidePath) with
      | none => rfl
      | some slideXml => rfl

theorem simpleExtract_none_of_no_rels (zip : Zip)
    (hr : zipFile zip "ppt/_rels/presentation.xml.rels" = none) (r : Option String) :
    simpleExtract zip r = none := by
  cases r with
  | none => rfl
  | some rId => simp only [simpleExtract, hr]

theorem extractRef_dichotomy (zip : Zip) (r : Option String) :
    extractRef zip r = Except.ok (simpleExtract zip r) ∨
      extractRef zip r = Except.error "presentation.xml.rels not found" := by
  cases hr : zipFile zip "ppt/_rels/presentation.xml.rels" with
  | some R => exact Or.inl (extractRef_eq_of_rels zip R hr r)
  | none =>
    cases r with
    | none => exact Or.inl rfl
    | some rId =>
      right
      simp only [extractRef, hr]

theorem collectResults_ok {α : Type} (f : α → Except String (Option Slide))
    (g : α → Option Slide) :
    ∀ (l : List α), (∀ x ∈ l, f x = Except.ok (g x)) →
      collectResults (l.map f) = Except.ok (l.map g)
  | [], _ => rfl
  | a :: t, h => by
    have ha := h a (List.mem_cons_self a t)
    have ht := collectResults_ok f g t (fun x hx => h x (List.mem_cons_of_mem a hx))
    simp only [List.map_cons, ha, collectResults, ht, Except.map]

theorem collectResults_error_uniform (msg : String) :
    ∀ (ts : List (Except String (Option Slide))),
      (∀ t ∈ ts, (∃ v, t = Except.ok v) ∨ t = Except.error msg) →
      (∃ t ∈ ts, t = Except.error msg) →
      collectResults ts = Except.error msg
  | [], _, hex => by simp at hex
  | t₀ :: ts, h, hex => by
    cases h t₀ (List.mem_cons_self t₀ ts) with
    | inr herr =>
      subst herr
      rfl
    | inl hok =>
      obtain ⟨v, hv⟩ := hok
      subst hv
      have hex' : ∃ t ∈ ts, t = Except.error msg := by
        obtain ⟨t, htm, hte⟩ := hex
        cases List.mem_cons.mp htm with
        | inl heq => exact absurd (heq ▸ hte) (by simp)
        | inr hmem => exact ⟨t, hmem, hte⟩
      have := collectResults_error_uniform msg ts
        (fun t ht => h t (List.mem_cons_of_mem (Except.ok v) ht)) hex'
      simp only [collectResults, this, Except.map]

theorem collectResults_mem :
    ∀ (ts : List (Except String (Option Slide))) (vs : List (Option Slide)),
      collectResults ts = Except.ok vs → ∀ v ∈ vs, Except.ok v ∈ ts
  | [], vs, h => by
    simp only [collectResults, Except.ok.injEq] at h
    subst h
    intro v hv
    simp at hv
  | Except.error e :: ts, vs, h => by simp [collectResults] at h
  | Except.ok v₀ :: ts, vs, h => by
    cases hrest : collectResults ts with
    | error e => rw [collectResults, hrest] at h; simp [Except.map] at h
    | ok vs' =>
      rw [collectResults, hrest] at h
      simp only [Except.map, Except.ok.injEq] at h
      subst h
      intro v hv
      cases List.mem_cons.mp hv with
      | inl heq => exact heq ▸ List.mem_cons_self _ _
      | inr hmem =>
        exact List.mem_cons_of_mem _ (collectResults_mem ts vs' hrest v hmem)

/-- Characterization of `parsePptx` when the per-slide tasks do not reject:
the result is the manifest-ordered list of resolved slides, or the
zero-slides error when that list is empty. -/
theorem parsePptx_char (zip : Zip) (P : XmlDoc)
    (hp : zipFile zip "ppt/presentation.xml" = some P)
    (hok : ∀ r ∈ P.sldIds, extractRef zip r = Except.ok (simpleExtract zip r)) :
    parsePptx zip =
      (if (P.sldIds.filterMap (simpleExtract zip)).length == 0 then
        Except.error "Could not find any slides in the PPTX file."
      else Except.ok (P.sldIds.filterMap (simpleExtract zip))) := by
  rw [parsePptx, hp]
  dsimp only
  rw [collectResults_ok (extractRef zip) (simpleExtract zip) P.sldIds hok]
  dsimp only
  simp only [List.filterMap_map, Function.id_comp]

theorem map_eq_filterMap_of_isSome {α β : Type} (g : α → Option β) :
    ∀ (l : List α), (∀ x ∈ l, (g x).isSome = true) →
      l.map g = (l.filterMap g).map some ∧ (l.filterMap g).length = l.length
  | [], _ => ⟨rfl, rfl⟩
  | a :: t, h => by
    obtain ⟨b, hb⟩ := Option.isSome_iff_exists.mp (h a (List.mem_cons_self a t))
    have iht := map_eq_filterMap_of_isSome g t (fun x hx => h x (List.mem_cons_of_mem a hx))
    constructor
    · simp only [List.map_cons, List.filterMap_cons, hb, iht.1]
    · simp only [List.filterMap_cons, hb, List.length_cons, iht.2]

/-- C1 (counterexample at N = 0): an archive whose manifest and relationship
index are present but whose manifest lists zero slide references — so every
reference vacuously resolves — does not yield a 0-element slide sequence:
the import fails with the zero-slides error. -/
theorem parsePptx_zero_refs_counterexample :
    zipFile zipEmpty "ppt/presentation.xml" = some { sldIds := [] } ∧
    zipFile zipEmpty "ppt/_rels/presentation.xml.rels" = some { rels := [] } ∧
    parsePptx zipEmpty = Except.error "Could not find any slides in the PPTX file." :=
  ⟨rfl, rfl, rfl⟩

/-- C1 (amended): for every archive whose manifest and relationship index are
present and whose manifest lists at least one slide reference, if every
reference resolves to an existing slide part then `parsePptx` returns exactly
one Slide per reference, ordered by the references' positions in the
manifest. -/
theorem parsePptx_manifest_order (zip : Zip) (P R : XmlDoc)
    (hp : zipFile zip "ppt/presentation.xml" = some P)
    (hr : zipFile zip "ppt/_rels/presentation.xml.rels" = some R)
    (hne : P.sldIds ≠ [])
    (hall : ∀ r ∈ P.sldIds, (simpleExtract zip r).isSome = true) :
    parsePptx zip = Except.ok (P.sldIds.filterMap (simpleExtract zip)) ∧
    (P.sldIds.filterMap (simpleExtract zip)).length = P.sldIds.length ∧
    P.sldIds.map (simpleExtract zip) = (P.sldIds.filterMap (simpleExtract zip)).map some := by
  obtain ⟨hmap, hlen⟩ := map_eq_filterMap_of_isSome (simpleExtract zip) P.sldIds hall
  have hchar := parsePptx_char zip P hp (fun r _ => extractRef_eq_of_rels zip R hr r)
  have hlen0 : ((P.sldIds.filterMap (simpleExtract zip)).length == 0) = false := by
    rw [hlen]
    cases hSl : P.sldIds with
    | nil => exact absurd hSl hne
    | cons a t => simp
  refine ⟨?_, hlen, hmap⟩
  rw [hchar, hlen0]
  simp

/-- Closed instance of the amended C1: a two-reference archive where both
references resolve yields exactly the two slides, in manifest order. -/
theorem parsePptx_manifest_order_witness :
    (parsePptx zip2 = Except.ok ([some "rId1", some "rId2"].filterMap (simpleExtract zip2)) ∧
     ([some "rId1", some "rId2"].filterMap (simpleExtract zip2)).length =
       ([some "rId1", some "rId2"] : List (Option String)).length ∧
     [some "rId1", some "rId2"].map (simpleExtract zip2) =
       ([some "rId1", some "rId2"].filterMap (simpleExtract zip2)).map some) ∧
    [some "rId1", some "rId2"].filterMap (simpleExtract zip2) = [zip2Slide1, zip2Slide2] :=
  ⟨parsePptx_manifest_order zip2 { sldIds := [some "rId1", some "rId2"] }
      { rels := [ { id := some "rId1", type := some "slideType", target := some "slides/slide1.xml" },
                  { id := some "rId2", type := some "slideType", target := some "slides/slide2.xml" } ] }
      rfl rfl (by simp) (by decide),
   rfl⟩

/-- C2: `parsePptx` fails exactly when the manifest part is absent, the
manifest relationship index is absent, or zero slides remain after
processing; in every other case it returns a slide sequence. -/
theorem parsePptx_failure_iff (zip : Zip) :
    (∃ e, parsePptx zip = Except.error e) ↔
      (zipFile zip "ppt/presentation.xml" = none ∨
       zipFile zip "ppt/_rels/presentation.xml.rels" = none ∨
       ∃ P, zipFile zip "ppt/presentation.xml" = some P ∧
         P.sldIds.filterMap (simpleExtract zip) = []) := by
  cases hp : zipFile zip "ppt/presentation.xml" with
  | none =>
    refine iff_of_true ⟨"Invalid PPTX file: presentation.xml not found.", ?_⟩ (Or.inl rfl)
    rw [parsePptx, hp]
  | some P =>
    cases hr : zipFile zip "ppt/_rels/presentation.xml.rels" with
    | none =>
      refine iff_of_true ?_ (Or.inr (Or.inl rfl))
      by_cases hex : ∃ r ∈ P.sldIds, extractRef zip r = Except.error "presentation.xml.rels not found"
      · refine ⟨"presentation.xml.rels not found", ?_⟩
        rw [parsePptx, hp]
        dsimp only
        rw [collectResults_error_uniform "presentation.xml.rels not found"
          (P.sldIds.map (extractRef zip)) ?dich ?hexm]
        case dich =>
          intro t ht
          obtain ⟨r, hrm, hre⟩ := List.mem_map.mp ht
          cases extractRef_dichotomy zip r with
          | inl hok => exact Or.inl ⟨simpleExtract zip r, by rw [← hre]; exact hok⟩
          | inr herr => exact Or.inr (by rw [← hre]; exact herr)
        case hexm =>
          obtain ⟨r, hrm, hre⟩ := hex
          exact ⟨extractRef zip r, List.mem_map_of_mem (extractRef zip) hrm, hre⟩
      · have hall : ∀ r ∈ P.sldIds, extractRef zip r = Except.ok (simpleExtract zip r) := by
          intro r hrm
          cases extractRef_dichotomy zip r with
          | inl hok => exact hok
          | inr herr => exact absurd ⟨r, hrm, herr⟩ hex
        have hnil : P.sldIds.filterMap (simpleExtract zip) = [] := by
          rw [List.filterMap_eq_nil_iff]
          intro r hrm
          exact simpleExtract_none_of_no_rels zip hr r
        refine ⟨"Could not find any slides in the PPTX file.", ?_⟩
        rw [parsePptx_char zip P hp hall, hnil]
        rfl
    | some R =>
      have hall : ∀ r ∈ P.sldIds, extractRef zip r = Except.ok (simpleExtract zip r) :=
        fun r _ => extractRef_eq_of_rels zip R hr r
      have hchar := parsePptx_char zip P hp hall
      by_cases hnil : P.sldIds.filterMap (simpleExtract zip) = []
      · refine iff_of_true
          ⟨"Could not find any slides in the PPTX file.", ?_⟩
          (Or.inr (Or.inr ⟨P, rfl, hnil⟩))
        rw [hchar, hnil]
        rfl
      · refine iff_of_false ?_ ?_
        · rintro ⟨e, he⟩
          rw [hchar] at he
          have hlen0 : ((P.sldIds.filterMap (simpleExtract zip)).length == 0) = false := by
            cases hfm : P.sldIds.filterMap (simpleExtract zip) with
            | nil => exact absurd hfm hnil
            | cons a t => simp
          rw [hlen0] at he
          simp at he
        · rintro (h1 | h2 | ⟨P', hP', hnil'⟩)
          · exact Option.noConfusion h1
          · exact Option.noConfusion h2
          · have := Option.some.inj hP'
            subst this
            exact hnil hnil'

/-- C3: a manifest reference that does not resolve (no relationship
identifier, no relationship entry or target, or a missing slide part) is
skipped, and the remaining slides keep their original relative order. -/
theorem parsePptx_skips_unresolved (zip : Zip) (P R : XmlDoc)
    (l₁ l₂ : List (Option String)) (r : Option String)
    (hp : zipFile zip "ppt/presentation.xml" = some P)
    (hr : zipFile zip "ppt/_rels/presentation.xml.rels" = some R)
    (hsplit : P.sldIds = l₁ ++ r :: l₂)
    (hskip : simpleExtract zip r = none)
    (hne : l₁.filterMap (simpleExtract zip) ++ l₂.filterMap (simpleExtract zip) ≠ []) :
    parsePptx zip =
      Except.ok (l₁.filterMap (simpleExtract zip) ++ l₂.filterMap (simpleExtract zip)) := by
  have hchar := parsePptx_char zip P hp (fun r' _ => extractRef_eq_of_rels zip R hr r')
  rw [hsplit] at hchar
  simp only [List.filterMap_append, List.filterMap_cons, hskip] at hchar
  have hlen0 : ((l₁.filterMap (simpleExtract zip) ++ l₂.filterMap (simpleExtract zip)).length == 0) = false := by
    cases hfm : l₁.filterMap (simpleExtract zip) ++ l₂.filterMap (simpleExtract zip) with
    | nil => exact absurd hfm hne
    | cons a t => simp
  rw [hchar, hlen0]
  simp

/-- Closed instance of C3: a three-reference archive whose second reference's
target part is missing yields the two remaining slides, preserving the order
of references 1 and 3. -/
theorem parsePptx_skips_unresolved_witness :
    parsePptx zip3 =
      Except.ok ([some "rId1"].filterMap (simpleExtract zip3) ++
        [some "rId3"].filterMap (simpleExtract zip3)) ∧
    [some "rId1"].filterMap (simpleExtract zip3) ++ [some "rId3"].filterMap (simpleExtract zip3) =
      [{ title := "One", content := [], speakerNotes := "" },
       { title := "Three", content := [], speakerNotes := "" }] :=
  ⟨parsePptx_skips_unresolved zip3 { sldIds := [some "rId1", some "rId2", some "rId3"] }
      { rels := [ { id := some "rId1", type := some "slideType", target := some "slides/slide1.xml" },
                  { id := some "rId2", type := some "slideType", target := some "slides/slide2.xml" },
                  { id := some "rId3", type := some "slideType", target := some "slides/slide3.xml" } ] }
      [some "rId1"] [some "rId3"] (some "rId2") rfl rfl rfl rfl (by decide),
   rfl⟩

/-- C4 (code bug): the target `../notesSlides/notesSlide1.xml` recorded under
base `ppt/slides/` is looked up at `ppt/slides/notesSlides/notesSlide1.xml`,
not at the correctly normalized sibling path `ppt/notesSlides/notesSlide1.xml`;
on an archive with the notes part at its standard location the import
therefore yields empty speaker notes. -/
theorem parsePptx_notes_path_bug :
    zipFile zipNotesStd "ppt/notesSlides/notesSlide1.xml" = some { allRuns := ["Secret note"] } ∧
    "ppt/slides/" ++ replaceFirst "../notesSlides/notesSlide1.xml" "../" =
      "ppt/slides/notesSlides/notesSlide1.xml" ∧
    zipFile zipNotesStd "ppt/slides/notesSlides/notesSlide1.xml" = none ∧
    parsePptx zipNotesStd =
      Except.ok [{ title := "T", content := [], speakerNotes := "" }] :=
  ⟨rfl, rfl, rfl, rfl⟩

/-- C5: a built Slide's title is the separator-free concatenation, in
document order, of all text runs of the first shape flagged `title` or
`ctrTitle`; when no such shape exists the title is `"Untitled Slide"`. -/
theorem slide_title_extraction (zip : Zip) (slidePath : String) (sx : XmlDoc) :
    (∀ sp, sx.shapes.find? isTitleShape = some sp →
      (buildSlide zip slidePath sx).title = String.join sp.paragraphs.flatten) ∧
    (sx.shapes.find? isTitleShape = none →
      (buildSlide zip slidePath sx).title = "Untitled Slide") := by
  constructor
  · intro sp hsp
    simp only [buildSlide, slideTitle, hsp]
  · intro hnone
    simp only [buildSlide, slideTitle, hnone]

/-- The slide document of the C5 scenario: one title shape with the two text
runs `"Intro"` and `" to Rome"`. -/
def titleDocW : XmlDoc :=
  { shapes := [ { phType := some "title", paragraphs := [["Intro", " to Rome"]] } ] }

/-- Closed instance of C5: the two runs concatenate to `"Intro to Rome"`. -/
theorem slide_title_extraction_witness :
    titleDocW.shapes.find? isTitleShape =
      some { phType := some "title", paragraphs := [["Intro", " to Rome"]] } ∧
    (buildSlide [] "slides/slide1.xml" titleDocW).title = "Intro to Rome" :=
  ⟨rfl,
   ((slide_title_extraction [] "slides/slide1.xml" titleDocW).1
      { phType := some "title", paragraphs := [["Intro", " to Rome"]] } rfl).trans rfl⟩

/-- C6: a built Slide's content has one string per paragraph of the first
shape flagged `body`, each the separator-free concatenation of that
paragraph's runs; when no body shape exists the content is `[]`. -/
theorem slide_content_extraction (zip : Zip) (slidePath : String) (sx : XmlDoc) :
    (∀ sp, sx.shapes.find? isBodyShape = some sp →
      (buildSlide zip slidePath sx).content = sp.paragraphs.map String.join) ∧
    (sx.shapes.find? isBodyShape = none →
      (buildSlide zip slidePath sx).content = []) := by
  constructor
  · intro sp hsp
    simp only [buildSlide, slideContent, hsp]
  · intro hnone
    simp only [buildSlide, slideContent, hnone]

/-- The slide document of the C6 scenario: one body shape with two
paragraphs. -/
def bodyDocW : XmlDoc :=
  { shapes := [ { phType := some "body", paragraphs := [["First", " point"], ["Second"]] } ] }

/-- Closed instance of C6: two paragraphs yield the two per-paragraph
strings, in document order. -/
theorem slide_content_extraction_witness :
    bodyDocW.shapes.find? isBodyShape =
      some { phType := some "body", paragraphs := [["First", " point"], ["Second"]] } ∧
    (buildSlide [] "slides/slide1.xml" bodyDocW).content = ["First point", "Second"] :=
  ⟨rfl,
   ((slide_content_extraction [] "slides/slide1.xml" bodyDocW).1
      { phType := some "body", paragraphs := [["First", " point"], ["Second"]] } rfl).trans rfl⟩

/-- C7: speaker notes are the separator-free concatenation of every text run
of the notes part reached through the slide's own relationship index entry
typed as a notes association; a missing slide rels part, missing notes
relationship or target, or missing notes part each yield the empty string. -/
theorem speaker_notes_extraction (zip : Zip) (slidePath : String) :
    (zipFile zip ("ppt/slides/_rels/" ++ lastComponent slidePath ++ ".rels") = none →
      slideNotes zip slidePath = "") ∧
    (∀ R, zipFile zip ("ppt/slides/_rels/" ++ lastComponent slidePath ++ ".rels") = some R →
      (R.rels.find? isNotesRel).bind (fun rel => rel.target) = none →
      slideNotes zip slidePath = "") ∧
    (∀ R p, zipFile zip ("ppt/slides/_rels/" ++ lastComponent slidePath ++ ".rels") = some R →
      (R.rels.find? isNotesRel).bind (fun rel => rel.target) = some p →
      zipFile zip ("ppt/slides/" ++ replaceFirst p "../") = none →
      slideNotes zip slidePath = "") ∧
    (∀ R p N, zipFile zip ("ppt/slides/_rels/" ++ lastComponent slidePath ++ ".rels") = some R →
      (R.rels.find? isNotesRel).bind (fun rel => rel.target) = some p →
      zipFile zip ("ppt/slides/" ++ replaceFirst p "../") = some N →
      slideNotes zip slidePath = String.join N.allRuns) := by
  refine ⟨?_, ?_, ?_, ?_⟩ <;> intros <;> simp only [slideNotes, *]

/-- Closed instance of C7: a resolvable notes part with runs `"Hello"` and
`" notes"` yields `speakerNotes = "Hello notes"`. -/
theorem speaker_notes_extraction_witness :
    slideNotes zipNotesLocal "slides/slide1.xml" = String.join ["Hello", " notes"] ∧
    String.join ["Hello", " notes"] = "Hello notes" :=
  ⟨(speaker_notes_extraction zipNotesLocal "slides/slide1.xml").2.2.2
      { rels := [ { id := some "rId2", type := some "TypeOfNotes/notesSlide", target := some "notesSlide1.xml" } ] }
      "notesSlide1.xml"
      { allRuns := ["Hello", " notes"] }
      rfl rfl rfl,
   rfl⟩

/-- C9: the markdown export serializes each slide as a `##` heading from the
title, one `-` bullet per content string, and a `### Speaker Notes` section
from the speaker notes, and joins consecutive slides with the
`---` horizontal-rule separator. -/
theorem markdown_export_format (s : Slide) (rest : List Slide) :
    handleDownloadMarkdown [] = "" ∧
    handleDownloadMarkdown (s :: rest) =
      ("## " ++ s.title ++ "\n\n" ++
        joinSep "\n" (s.content.map (fun point => "- " ++ point)) ++
        "\n\n" ++ "### Speaker Notes\n" ++ s.speakerNotes) ++
      (match rest with
       | [] => ""
       | _ :: _ => "\n\n---\n\n" ++ handleDownloadMarkdown rest) := by
  constructor
  · rfl
  · cases rest with
    | nil =>
      simp only [handleDownloadMarkdown, List.map_cons, List.map_nil, joinSep,
        slideMarkdown, String.append_empty]
    | cons r t =>
      simp only [handleDownloadMarkdown, List.map_cons, joinSep, slideMarkdown,
        String.append_assoc]

/-- The slide in the `Except.ok` payload of `extractRef` is always a
`buildSlide`, so it carries no image reference. -/
theorem extractRef_ok_some_imageUrl (zip : Zip) (r : Option String) (s : Slide)
    (h : extractRef zip r = Except.ok (some s)) : s.imageUrl = none := by
  cases r with
  | none => simp [extractRef] at h
  | some rId =>
    simp only [extractRef] at h
    split at h
    · simp at h
    · split at h
      · simp at h
      · split at h
        · simp at h
        · simp only [Except.ok.injEq, Option.some.injEq] at h
          subst h
          rfl

/-- C10: every Slide produced by `parsePptx` has no image reference; the
optional `imageUrl` field is attached only later, by the view layer's
`attachImage` action. -/
theorem parsePptx_no_imageUrl (zip : Zip) (L : List Slide)
    (h : parsePptx zip = Except.ok L) : ∀ s ∈ L, s.imageUrl = none := by
  cases hp : zipFile zip "ppt/presentation.xml" with
  | none =>
    rw [parsePptx, hp] at h
    exact absurd h (by simp)
  | some P =>
    rw [parsePptx, hp] at h
    dsimp only at h
    cases hcr : collectResults (P.sldIds.map (extractRef zip)) with
    | error e =>
      rw [hcr] at h
      exact absurd h (by simp)
    | ok results =>
      rw [hcr] at h
      dsimp only at h
      by_cases hlen : ((results.filterMap id).length == 0) = true
      · rw [if_pos hlen] at h
        exact absurd h (by simp)
      · rw [if_neg hlen] at h
        have hL := Except.ok.inj h
        subst hL
        intro s hs
        obtain ⟨o, ho, hid⟩ := List.mem_filterMap.mp hs
        obtain rfl : o = some s := hid
        have hmem := collectResults_mem (P.sldIds.map (extractRef zip))
          results hcr (some s) ho
        obtain ⟨rRef, hrm, hre⟩ := List.mem_map.mp hmem
        exact extractRef_ok_some_imageUrl zip rRef s hre

/-- Closed instance of C10: both imported slides of `zip2` carry no image
reference. -/
theorem parsePptx_no_imageUrl_witness :
    parsePptx zip2 = Except.ok [zip2Slide1, zip2Slide2] ∧ zip2Slide1.imageUrl = none :=
  ⟨rfl, parsePptx_no_imageUrl zip2 [zip2Slide1, zip2Slide2] rfl zip2Slide1 (by simp)⟩

/-!
Schedule-independence of the fan-out: lemmas about `completedIn`,
`firstRejection` and `settleByIndex`, and the proof that a run under any
completion order equals the determinized `parsePptx`.
-/

theorem completedIn_mem_tasks (tasks : List (Except String (Option Slide))) :
    ∀ (σ : List Nat) (p : Nat × Except String (Option Slide)),
      p ∈ completedIn tasks σ → p.2 ∈ tasks := by
  intro σ
  induction σ with
  | nil =>
    intro p hp
    rw [completedIn] at hp
    exact absurd hp (List.not_mem_nil p)
  | cons j σ ih =>
    intro p hp
    rw [completedIn] at hp
    revert hp
    cases hj : tasks[j]? with
    | none =>
      intro hp
      exact ih p hp
    | some rj =>
      intro hp
      cases List.mem_cons.mp hp with
      | inl heq =>
        subst heq
        exact List.getElem?_mem hj
      | inr hmem => exact ih p hmem

theorem mem_completedIn (tasks : List (Except String (Option Slide))) (i : Nat)
    (r : Except String (Option Slide)) (ht : tasks[i]? = some r) :
    ∀ (σ : List Nat), i ∈ σ → (i, r) ∈ completedIn tasks σ
  | [], hi => absurd hi (List.not_mem_nil i)
  | j :: σ, hi => by
    rw [completedIn]
    cases hj : tasks[j]? with
    | none =>
      have hij : i ∈ σ := by
        cases List.mem_cons.mp hi with
        | inl heq => rw [heq, hj] at ht; exact Option.noConfusion ht
        | inr hmem => exact hmem
      exact mem_completedIn tasks i r ht σ hij
    | some rj =>
      dsimp only
      cases List.mem_cons.mp hi with
      | inl heq =>
        subst heq
        rw [ht] at hj
        rw [Option.some.inj hj]
        exact List.mem_cons_self _ _
      | inr hmem => exact List.mem_cons_of_mem _ (mem_completedIn tasks i r ht σ hmem)

theorem completedIn_find? (tasks : List (Except String (Option Slide))) (i : Nat)
    (r : Except String (Option Slide)) (ht : tasks[i]? = some r) :
    ∀ (σ : List Nat), i ∈ σ →
      (completedIn tasks σ).find? (fun p => p.1 == i) = some (i, r)
  | [], hi => absurd hi (List.not_mem_nil i)
  | j :: σ, hi => by
    rw [completedIn]
    cases hj : tasks[j]? with
    | none =>
      have hij : i ∈ σ := by
        cases List.mem_cons.mp hi with
        | inl heq => rw [heq, hj] at ht; exact Option.noConfusion ht
        | inr hmem => exact hmem
      exact completedIn_find? tasks i r ht σ hij
    | some rj =>
      dsimp only
      by_cases hji : j = i
      · subst hji
        rw [ht] at hj
        rw [Option.some.inj hj]
        rw [List.find?_cons_of_pos]
        simp
      · rw [List.find?_cons_of_neg]
        · have hij : i ∈ σ := by
            cases List.mem_cons.mp hi with
            | inl heq => exact absurd heq.symm hji
            | inr hmem => exact hmem
          exact completedIn_find? tasks i r ht σ hij
        · simp [hji]

theorem firstRejection_none :
    ∀ (completed : List (Nat × Except String (Option Slide))),
      (∀ p ∈ completed, ∃ v, p.2 = Except.ok v) → firstRejection completed = none
  | [], _ => rfl
  | p :: rest, h => by
    obtain ⟨v, hv⟩ := h p (List.mem_cons_self p rest)
    rw [firstRejection, hv]
    exact firstRejection_none rest (fun q hq => h q (List.mem_cons_of_mem p hq))

theorem firstRejection_uniform (msg : String) :
    ∀ (completed : List (Nat × Except String (Option Slide))),
      (∀ p ∈ completed, (∃ v, p.2 = Except.ok v) ∨ p.2 = Except.error msg) →
      (∃ p ∈ completed, p.2 = Except.error msg) →
      firstRejection completed = some msg
  | [], _, hex => by simp at hex
  | p :: rest, h, hex => by
    cases h p (List.mem_cons_self p rest) with
    | inr herr => rw [firstRejection, herr]
    | inl hok =>
      obtain ⟨v, hv⟩ := hok
      rw [firstRejection, hv]
      refine firstRejection_uniform msg rest
        (fun q hq => h q (List.mem_cons_of_mem p hq)) ?_
      obtain ⟨q, hqm, hqe⟩ := hex
      cases List.mem_cons.mp hqm with
      | inl heq =>
        subst heq
        rw [hv] at hqe
        exact absurd hqe (by simp)
      | inr hmem => exact ⟨q, hmem, hqe⟩

theorem range_filterMap_eq {α : Type} :
    ∀ (l : List α) (F : Nat → Option α),
      (∀ i (hi : i < l.length), F i = some (l.get ⟨i, hi⟩)) →
      (List.range l.length).filterMap F = l
  | [], _, _ => rfl
  | a :: t, F, h => by
    have h0 : F 0 = some a := h 0 (Nat.succ_pos t.length)
    have ht : ∀ i (hi : i < t.length), (F ∘ Nat.succ) i = some (t.get ⟨i, hi⟩) :=
      fun i hi => h (i + 1) (Nat.succ_lt_succ hi)
    calc (List.range (a :: t).length).filterMap F
        = (0 :: (List.range t.length).map Nat.succ).filterMap F := by
          rw [List.length_cons, List.range_succ_eq_map]
      _ = a :: ((List.range t.length).map Nat.succ).filterMap F := by
          rw [List.filterMap_cons, h0]
      _ = a :: (List.range t.length).filterMap (F ∘ Nat.succ) := by
          rw [List.filterMap_map]
      _ = a :: t := by rw [range_filterMap_eq t (F ∘ Nat.succ) ht]

theorem settleByIndex_all_ok (vs : List (Option Slide)) (σ : List Nat)
    (hσ : σ.Perm (List.range vs.length)) :
    settleByIndex (vs.map (Except.ok : Option Slide → Except String (Option Slide))).length
      (completedIn (vs.map (Except.ok : Option Slide → Except String (Option Slide))) σ) = vs := by
  unfold settleByIndex
  rw [List.length_map]
  apply range_filterMap_eq
  intro i hi
  have hmem : i ∈ σ := hσ.mem_iff.mpr (List.mem_range.mpr hi)
  have hti : (vs.map (Except.ok : Option Slide → Except String (Option Slide)))[i]? =
      some (Except.ok (vs.get ⟨i, hi⟩)) := by
    rw [List.getElem?_map, List.getElem?_eq_getElem hi]
    rfl
  rw [completedIn_find? (vs.map (Except.ok : Option Slide → Except String (Option Slide)))
    i (Except.ok (vs.get ⟨i, hi⟩)) hti σ hmem]
  rfl

theorem collectResults_map_ok : ∀ (vs : List (Option Slide)),
    collectResults (vs.map Except.ok) = Except.ok vs
  | [] => rfl
  | v :: t => by
    rw [List.map_cons, collectResults, collectResults_map_ok t]
    rfl

/-- A run of the importer under any completion order of the per-slide tasks
equals the determinized `parsePptx`. -/
theorem parsePptxSched_eq (zip : Zip) (σ : List Nat)
    (hσ : σ.Perm (List.range (manifestLen zip))) :
    parsePptxSched zip σ = parsePptx zip := by
  cases hp : zipFile zip "ppt/presentation.xml" with
  | none => rw [parsePptxSched, parsePptx, hp]
  | some P =>
    have hσ' : σ.Perm (List.range P.sldIds.length) := by
      rw [manifestLen, hp] at hσ
      exact hσ
    rw [parsePptxSched, parsePptx, hp]
    dsimp only
    by_cases hex : ∃ r ∈ P.sldIds, extractRef zip r = Except.error "presentation.xml.rels not found"
    · have hdichT : ∀ p ∈ completedIn (P.sldIds.map (extractRef zip)) σ,
          (∃ v, p.2 = Except.ok v) ∨ p.2 = Except.error "presentation.xml.rels not found" := by
        intro p hp2
        have hmem := completedIn_mem_tasks (P.sldIds.map (extractRef zip)) σ p hp2
        obtain ⟨r, hrm, hre⟩ := List.mem_map.mp hmem
        cases extractRef_dichotomy zip r with
        | inl hok => exact Or.inl ⟨simpleExtract zip r, by rw [← hre]; exact hok⟩
        | inr herr => exact Or.inr (by rw [← hre]; exact herr)
      have hexC : ∃ p ∈ completedIn (P.sldIds.map (extractRef zip)) σ,
          p.2 = Except.error "presentation.xml.rels not found" := by
        obtain ⟨r, hrm, hre⟩ := hex
        obtain ⟨i, hilt, hieq⟩ := List.mem_iff_getElem.mp hrm
        have hti : (P.sldIds.map (extractRef zip))[i]? =
            some (Except.error "presentation.xml.rels not found") := by
          rw [List.getElem?_map, List.getElem?_eq_getElem hilt, Option.map_some', hieq, hre]
        have himem : i ∈ σ := hσ'.mem_iff.mpr (List.mem_range.mpr hilt)
        exact ⟨(i, Except.error "presentation.xml.rels not found"),
          mem_completedIn _ i _ hti σ himem, rfl⟩
      rw [firstRejection_uniform "presentation.xml.rels not found" _ hdichT hexC]
      rw [collectResults_error_uniform "presentation.xml.rels not found"
        (P.sldIds.map (extractRef zip)) ?dich2 ?hex2]
      case dich2 =>
        intro t ht
        obtain ⟨r, hrm, hre⟩ := List.mem_map.mp ht
        cases extractRef_dichotomy zip r with
        | inl hok => exact Or.inl ⟨simpleExtract zip r, by rw [← hre]; exact hok⟩
        | inr herr => exact Or.inr (by rw [← hre]; exact herr)
      case hex2 =>
        obtain ⟨r, hrm, hre⟩ := hex
        exact ⟨extractRef zip r, List.mem_map_of_mem (extractRef zip) hrm, hre⟩
    · have hall : ∀ r ∈ P.sldIds, extractRef zip r = Except.ok (simpleExtract zip r) := by
        intro r hrm
        cases extractRef_dichotomy zip r with
        | inl hok => exact hok
        | inr herr => exact absurd ⟨r, hrm, herr⟩ hex
      have htasks : P.sldIds.map (extractRef zip) =
          (P.sldIds.map (simpleExtract zip)).map Except.ok := by
        rw [List.map_map]
        exact List.map_congr_left hall
      rw [htasks]
      rw [firstRejection_none _ ?allok]
      case allok =>
        intro p hp2
        have hmem := completedIn_mem_tasks _ σ p hp2
        obtain ⟨v, hvm, hve⟩ := List.mem_map.mp hmem
        exact ⟨v, hve.symm⟩
      rw [settleByIndex_all_ok (P.sldIds.map (simpleExtract zip)) σ ?σperm]
      case σperm => rw [List.length_map]; exact hσ'
      rw [collectResults_map_ok]

/-- C8: the import is deterministic — two runs on the same archive, under
any two completion orders of the fan-out of per-slide tasks, yield
structurally equal results. -/
theorem parsePptx_schedule_deterministic (zip : Zip) (σ₁ σ₂ : List Nat)
    (h₁ : σ₁.Perm (List.range (manifestLen zip)))
    (h₂ : σ₂.Perm (List.range (manifestLen zip))) :
    parsePptxSched zip σ₁ = parsePptxSched zip σ₂ :=
  (parsePptxSched_eq zip σ₁ h₁).trans (parsePptxSched_eq zip σ₂ h₂).symm

/-- Closed instance of C8: on the two-slide archive, the run whose second
slide task settles first equals the run settling in source order. -/
theorem parsePptx_schedule_deterministic_witness :
    parsePptxSched zip2 [1, 0] = parsePptxSched zip2 [0, 1] :=
  parsePptx_schedule_deterministic zip2 [1, 0] [0, 1] (by decide) (by decide)
